import Mathlib

/-!
Verification of the orchestration core of `tssl.py` (a wrapper around
testssl.sh and aha) against its natural-language specification.

The Python source is shallowly embedded: strings are `List Char`
(`PyStr`), fallible code returns `Option`/`Except`, file-system and
process side effects are reified as an explicit event list (`Eff`), and
the interactive scan-supervision loop of `runTestssl` is a recursive
function over a script of spawn attempts and operator answers.

Conventions of the embedding:
- Python string truthiness is modeled by `List.isEmpty`.
- `set(...)` is modeled by `List.dedup` (membership-equivalent; Python
  set iteration order is arbitrary, so only set contents matter).
- Targets containing a newline character are outside the model: the
  regex dot in `re.match` does not match a newline, but every target
  reaching `runTestssl` has been `str.strip()`-ed line input or a CLI
  argument, and none of the claims concerns embedded newlines.
-/

abbrev PyStr := List Char

deriving instance DecidableEq for Except

/-- ASCII whitespace recognized by Python `str.strip()` (the Unicode
whitespace beyond ASCII is not modeled; no claim involves it). -/
def isPySpace (c : Char) : Bool :=
  c == ' ' || c == '\t' || c == '\n' || c == '\r' || c == '\x0b' || c == '\x0c'

/-- Python `str.strip()`: drop leading and trailing whitespace. -/
def pyStrip (s : PyStr) : PyStr :=
  ((s.dropWhile isPySpace).reverse.dropWhile isPySpace).reverse

/-- Python `str.rstrip('/')` (tssl.py line 284): drop ALL trailing `'/'`
characters. -/
def pyRstripSlash (s : PyStr) : PyStr :=
  (s.reverse.dropWhile (fun c => c == '/')).reverse

/-- Python `str.replace(a, b)` for a single-character pattern `a`
(tssl.py lines 288-289 chain three such calls). -/
def pyReplace (a : Char) (b : PyStr) : PyStr → PyStr
  | [] => []
  | c :: cs => (if c = a then b else [c]) ++ pyReplace a b cs

/-- The scheme-stripping behavior of `re.match(r'^(.+?://)?(.+?)$', s)`
scanned from the second character on: the lazy optional group captures
the shortest nonempty prefix followed by `"://"`, provided a nonempty
remainder is left for the second group.  `dropSchemeAux` is applied to
the tail of the string, so the `"://"` found sits at index ≥ 1, i.e.
the scheme part is nonempty. -/
def dropSchemeAux : PyStr → Option PyStr
  | ':' :: '/' :: '/' :: c :: rest => some (c :: rest)
  | _ :: rest => dropSchemeAux rest
  | [] => none

/-- tssl.py lines 284-287: `targetStrip`.  The target is first
`rstrip('/')`-ed; if the regex fails to match (only possible when the
rstripped string is empty) the `except` branch keeps the ORIGINAL
target; otherwise the optional scheme prefix is removed. -/
def targetStrip (target : PyStr) : PyStr :=
  match pyRstripSlash target with
  | [] => target
  | _ :: tail =>
    match dropSchemeAux tail with
    | some rest => rest
    | none => pyRstripSlash target

/-- tssl.py line 290: the label is appended when truthy (non-empty). -/
def labelSuffix (label : PyStr) : PyStr :=
  if label.isEmpty then [] else '_' :: label

/-- tssl.py lines 284-290: the Output Namer.  The output-directory part
of `fileName` is omitted: it is a constant prefix shared by all targets
of a run and plays no role in any claim.  Note the source replaces
`'/'` by `'_'`, then `' '` by the EMPTY string, then `':'` by `'_'`. -/
def tsslBasename (target : PyStr) (label : PyStr) : PyStr :=
  "testssl_".toList ++
    pyReplace ':' ['_'] (pyReplace ' ' [] (pyReplace '/' ['_'] (targetStrip target))) ++
    labelSuffix label

/-- The Output Namer exactly as claim C2 words it: strip any leading
`scheme://`, strip ONE trailing `'/'`, then replace each `'/'`, space
and `':'` character with `'_'`; append `_<label>` when a label was
supplied.  Stated from the spec, to be compared against
`tsslBasename`. -/
def specBasenameClaimed (target : PyStr) (label : PyStr) : PyStr :=
  let t :=
    match target with
    | [] => []
    | _ :: tail =>
      match dropSchemeAux tail with
      | some rest => rest
      | none => target
  let t := if t.getLast? = some '/' then t.dropLast else t
  let t := t.map (fun c => if c = '/' || c = ' ' || c = ':' then '_' else c)
  "testssl_".toList ++ t ++ labelSuffix label

/-- Spec-side (amended wording): remove ALL trailing `'/'` characters,
by structural recursion. -/
def dropTrailingSlashesSpec : PyStr → PyStr
  | [] => []
  | c :: cs =>
    match dropTrailingSlashesSpec cs with
    | [] => if c = '/' then [] else [c]
    | r => c :: r

/-- Spec-side (amended wording): in one pass, replace `'/'` and `':'`
by `'_'` and DELETE each space character. -/
def specMunge : PyStr → PyStr
  | [] => []
  | c :: cs =>
    if c = '/' || c = ':' then '_' :: specMunge cs
    else if c = ' ' then specMunge cs
    else c :: specMunge cs

/-- The Output Namer as amended: strip all trailing `'/'`, then strip
any leading `scheme://` (shortest nonempty scheme), then replace `'/'`
and `':'` with `'_'` and remove spaces; a target that is empty or
consists solely of `'/'` is munged unstripped; append `_<label>` when a
label was supplied. -/
def specBasenameAmended (target : PyStr) (label : PyStr) : PyStr :=
  let s := dropTrailingSlashesSpec target
  let core :=
    match s with
    | [] => target
    | _ :: tail =>
      match dropSchemeAux tail with
      | some rest => rest
      | none => s
  "testssl_".toList ++ specMunge core ++ labelSuffix label

/-! ## Target Resolver (tssl.py `parseArgs`, lines 218-248) -/

/-- A newline-delimited `-fL` input file: its resolved path, whether it
exists, and its lines (as produced by `f.read().splitlines()`). -/
structure ListFile where
  path : PyStr
  present : Bool
  lines : List PyStr
deriving DecidableEq

/-- A `-fN` / `-fX` structured report file: its resolved path, whether
it exists, and the targets its parser (`parseNessus` / `parseNmap`,
treated by the spec as opaque input-to-target-list converters)
extracts from it. -/
structure ReportFile where
  path : PyStr
  present : Bool
  parsedTargets : List PyStr
deriving DecidableEq

/-- The `sys.exit` outcomes of target resolution, keyed by the message
printed at tssl.py lines 226, 230-232 and 247. -/
inductive ResolveErr where
  /-- "Input file '...' does not exist" -/
  | inputFileMissing (path : PyStr)
  /-- "Input file '...' contains invalid targets. ..." (a line starts
  with `<`) -/
  | invalidListFile (path : PyStr)
  /-- "No targets detected" -/
  | noTargets
deriving DecidableEq

/-- tssl.py lines 222-232: each `-fL` file is resolved, required to
exist, and each of its lines is checked not to begin with `<`.  NOTE:
faithful to the source, the lines are only validated — they are never
appended to the `targets` list. -/
def checkListFiles : List ListFile → Option ResolveErr
  | [] => none
  | f :: rest =>
    if !f.present then some (ResolveErr.inputFileMissing f.path)
    else if f.lines.any (fun l => l.head? = some '<') then
      some (ResolveErr.invalidListFile f.path)
    else checkListFiles rest

/-- tssl.py lines 233-244: each report file is resolved, required to
exist, and its parsed targets are appended in order. -/
def collectReports : List ReportFile → Except ResolveErr (List PyStr)
  | [] => Except.ok []
  | f :: rest =>
    if !f.present then Except.error (ResolveErr.inputFileMissing f.path)
    else
      match collectReports rest with
      | Except.error e => Except.error e
      | Except.ok ts => Except.ok (f.parsedTargets ++ ts)

/-- tssl.py lines 218-248: merge URL arguments, `-fL` files (validated
but contributing no targets — see `checkListFiles`), Nessus and nmap
report targets; then `set(filter(None, map(str.strip, targets)))`,
modeled as strip, drop empties, `dedup`; exit "No targets detected"
when the result is empty.  `none` models an absent (`None`) argument
list. -/
def resolveTargets (urls : Option (List PyStr)) (files : Option (List ListFile))
    (filesNessus filesXml : Option (List ReportFile)) :
    Except ResolveErr (List PyStr) :=
  let t0 := urls.getD []
  match checkListFiles (files.getD []) with
  | some e => Except.error e
  | none =>
    match collectReports (filesNessus.getD []) with
    | Except.error e => Except.error e
    | Except.ok tN =>
      match collectReports (filesXml.getD []) with
      | Except.error e => Except.error e
      | Except.ok tX =>
        let merged := t0 ++ tN ++ tX
        let resolved := ((merged.map pyStrip).filter (fun s => !s.isEmpty)).dedup
        if resolved.isEmpty then Except.error ResolveErr.noTargets
        else Except.ok resolved

/-! ## `parseArgs` entry checks (tssl.py lines 145-161) -/

/-- A `sys.exit` call.  Python maps `sys.exit()` (argument `None`) to
process exit status 0 and `sys.exit(msg)` for a string message to
status 1 (the message is printed to stderr). -/
inductive PyExit where
  /-- `sys.exit()` — exit status 0. -/
  | plain
  /-- `sys.exit("...")` — exit status 1. -/
  | message
deriving DecidableEq

/-- Exit status of a `sys.exit` call. -/
def PyExit.status : PyExit → Nat
  | PyExit.plain => 0
  | PyExit.message => 1

/-- tssl.py lines 145-161.  `parse_args` itself succeeds on an empty
argument vector (every flag is optional).  Returns `some (helpShown,
exit)` when `parseArgs` terminates the process in this prologue:
line 147-149 prints the help and calls `sys.exit()` when `argv` holds
only the program name; lines 155-157 reject single quotes in
arguments; lines 158-161 require at least one target source. -/
def parseArgsEarly (argvLen : Nat) (quoteInArg : Bool) (anySource : Bool) :
    Option (Bool × PyExit) :=
  if argvLen = 1 then some (true, PyExit.plain)
  else if quoteInArg then some (false, PyExit.message)
  else if !anySource then some (false, PyExit.message)
  else none

/-! ## Side-effect events -/

/-- Reified file-system / process effects of a run.  Scan-output files
(`.json`/`.log`/`.csv`) are written by the spawned testssl process
itself (spec §6); spawning is therefore an event too. -/
inductive Eff where
  /-- `mkdirs(args.directory)` (tssl.py line 170) -/
  | mkdirOutputDir
  /-- `mkdirs(outDir)` for `<dir>/testssl` (tssl.py line 277) -/
  | mkdirTestsslDir
  /-- `open(name, 'w')` of a run artifact -/
  | writeFile (name : PyStr)
  /-- `os.remove(name)` -/
  | deleteFile (name : PyStr)
  /-- `pexpect.spawn` of the scan executable for a basename -/
  | spawnScan (basename : PyStr)
  /-- the zip archive was created and fully written (tssl.py lines 406-419) -/
  | writeArchive
  /-- `zip.testzip()` returned `None` (tssl.py line 429) -/
  | verifyArchivePassed
  /-- `zip.testzip()` reported a corrupt member (tssl.py line 438) -/
  | verifyArchiveFailed
  /-- `rmtree(path)` of the output directory (tssl.py line 434) -/
  | removeOutputDir
deriving DecidableEq

/-! ## Glob matching (Python `glob.glob` via `fnmatch`)

tssl.py consults the file system with `glob(f"{fileName}*")` (line 291)
and `glob(f"{fileName}.*")` (line 381).  The pattern is therefore the
basename — with ANY glob metacharacters it happens to contain —
followed by `*`.  `glob` matches the final path component with
`fnmatch` semantics: `*` matches any sequence, `?` any single
character, `[...]` a character class (`[!...]` negated, `a-b` ranges,
a `]` standing first belongs to the class, `^` is literal), and a `[`
without a closing `]` is a literal `[` with the following characters
rescanned as pattern.  The directory part of `fileName` and the glob
hidden-file rule are immaterial here: the modeled component patterns
start with the literal `testssl_`. -/

/-- Membership of a character in an fnmatch class body (`a-b` ranges by
code point, everything else literal; a trailing or leading `-` is
literal). -/
def classHas : PyStr → Char → Bool
  | a :: '-' :: b :: rest, c => (decide (a ≤ c ∧ c ≤ b)) || classHas rest c
  | a :: rest, c => (a == c) || classHas rest c
  | [], _ => false

/-- Characters other than the class-closing `']'`. -/
def notClose (c : Char) : Bool := !(c == ']')

/-- `fnmatch.translate` bracket parsing, applied to the characters
after a `'['`: an optional leading `'!'` negates; a `']'` standing
first belongs to the class body; the body then runs to the next `']'`;
with no closing `']'` the `'['` is literal (`none`).  Returns the
negation flag, the class body, and the pattern remainder. -/
def parseClass (ps : PyStr) : Option (Bool × PyStr × PyStr) :=
  match ps with
  | '!' :: ']' :: r2 =>
    match r2.dropWhile notClose with
    | _ :: after => some (true, ']' :: r2.takeWhile notClose, after)
    | [] => none
  | '!' :: r2 =>
    match r2.dropWhile notClose with
    | _ :: after => some (true, r2.takeWhile notClose, after)
    | [] => none
  | ']' :: r2 =>
    match r2.dropWhile notClose with
    | _ :: after => some (false, ']' :: r2.takeWhile notClose, after)
    | [] => none
  | r2 =>
    match r2.dropWhile notClose with
    | _ :: after => some (false, r2.takeWhile notClose, after)
    | [] => none

/-- One matching step against the string head `c`, where `next q`
decides whether pattern `q` matches the string tail.  Structural on
the pattern. -/
def globCons (c : Char) (next : PyStr → Bool) : PyStr → Bool
  | [] => false
  | pc :: ps =>
    if pc = '*' then globCons c next ps || next (pc :: ps)
    else if pc = '[' then
      match parseClass ps with
      | some (neg, content, rest) => (classHas content c != neg) && next rest
      | none => (pc == c) && next ps
    else if pc = '?' then next ps
    else (pc == c) && next ps

/-- Matching of a pattern against a string, structural on the string:
the empty string is matched exactly by an all-`'*'` pattern (no other
pattern element matches the empty string). -/
def globGo : PyStr → PyStr → Bool
  | [], p => p.all (fun pc => pc == '*')
  | c :: s', p => globCons c (globGo s') p

/-- `fnmatch.fnmatch s p` for the patterns tssl.py builds. -/
def globMatch (p s : PyStr) : Bool := globGo s p

/-- A string free of the glob metacharacters `'*'`, `'?'` and `'['`:
on such basenames the patterns `<basename>*` degenerate to prefix
tests. -/
def noGlobMeta (s : PyStr) : Bool :=
  s.all (fun c => !(c == '*') && !(c == '?') && !(c == '['))

/-! ## Process Supervisor (tssl.py `runTestssl`, lines 366-389) -/

/-- One `pexpect.spawn` attempt: the chunks `read_nonblocking` yields
before the loop ends, and whether it ends in a TIMEOUT (`true`) or in
EOF (`false`). -/
structure Attempt where
  chunks : List (List Nat)
  timedOut : Bool
deriving DecidableEq

/-- State threaded through the supervision loop: the in-memory raw
output buffer `testsslOut`, the listing of files currently present in
the output directory, the effect trace, and whether the loop was left
because a timeout was final (batch mode, or operator declined the
retry). -/
structure SupState where
  buffer : List Nat
  listing : List PyStr
  effs : List Eff
  abandoned : Bool
deriving DecidableEq

/-- Append names to a directory listing, keeping it duplicate-free. -/
def addNew (l new : List PyStr) : List PyStr :=
  l ++ new.filter (fun f => !l.contains f)

/-- The structured output files the spawned scan process writes for a
basename (`-oJ`/`-oL`/`-oC`, tssl.py lines 305-308). -/
def scanOutputs (bn : PyStr) : List PyStr :=
  [bn ++ ".json".toList, bn ++ ".log".toList, bn ++ ".csv".toList]

/-- tssl.py lines 366-389, the `while run` loop.  Each iteration spawns
the scan process (whose side effect is creating its structured output
files), accumulates every chunk read into the buffer (`testsslOut +=`,
initialized OUTSIDE the loop at line 366 and never reset), and ends in
either EOF (`run = False`) or TIMEOUT.  On an interactive timeout with
an affirmative answer, every file matching `glob(f"{fileName}.*")` is
removed and the loop respawns; otherwise `run = False`.  The attempt
script and answer list parameterize the external process and operator;
an exhausted script ends the model. -/
def superviseGo (batch : Bool) (bn : PyStr) :
    List Attempt → List Bool → SupState → SupState
  | [], _, st => st
  | a :: rest, answers, st =>
    let listing := addNew st.listing (scanOutputs bn)
    let effs := st.effs ++ [Eff.spawnScan bn]
    let buffer := st.buffer ++ a.chunks.flatten
    if a.timedOut then
      if batch then ⟨buffer, listing, effs, true⟩
      else
        match answers with
        | true :: restAns =>
          let dud := listing.filter (fun f => globMatch (bn ++ ['.', '*']) f)
          superviseGo batch bn rest restAns
            ⟨buffer, listing.filter (fun f => !globMatch (bn ++ ['.', '*']) f),
             effs ++ dud.map Eff.deleteFile, false⟩
        | _ => ⟨buffer, listing, effs, true⟩
    else ⟨buffer, listing, effs, false⟩

/-! ## Per-target pipeline (tssl.py `runTestssl`, lines 270-395) -/

/-- The scan configuration flags relevant to the per-target pipeline.
`--overwrite` (`-o`) and `--skip` (`-s`) are mutually exclusive at
argparse level. -/
structure Config where
  cmdOnly : Bool
  batch : Bool
  overwrite : Bool
  skip : Bool
  label : PyStr
deriving DecidableEq

/-- External-world script for one target: the spawn attempts and the
operator's retry answers. -/
structure TargetScript where
  attempts : List Attempt
  answers : List Bool
deriving DecidableEq

/-- State threaded through `runTestssl`'s target loop: output-directory
listing, effect trace, the `outFiles` accumulator, and the targets
whose composed command was printed (command-only mode; the command
text itself — lines 305-358, a quoting exercise over the argument
vector — flows only to the console and the `.sh` replay file and is
not modeled). -/
structure RState where
  listing : List PyStr
  effs : List Eff
  outFiles : List PyStr
  prints : List PyStr
deriving DecidableEq

/-- A `sys.exit` raised inside the target loop. -/
inductive RunErr where
  /-- "Output files for '...' already exist, rerun with --overwrite
  ... or --skip ..." (tssl.py lines 302-304) -/
  | conflict (target : PyStr)
deriving DecidableEq

/-- tssl.py lines 359-394: the tail of one loop iteration, after the
collision policy allowed the target through.  In command-only mode the
composed command is printed and the iteration ends (`continue`,
line 361) — the target is NOT added to `outFiles`.  Otherwise the
replay script `<basename>.sh` is written, the supervision loop runs,
and the HTML transcript is written from the accumulated buffer
REGARDLESS of how the loop ended (lines 390-394). -/
def runTargetScan (cfg : Config) (sc : TargetScript) (st : RState)
    (target bn : PyStr) : RState :=
  if cfg.cmdOnly then { st with prints := st.prints ++ [target] }
  else
    let sh := bn ++ ".sh".toList
    let st2 : RState :=
      { st with listing := addNew st.listing [sh],
                effs := st.effs ++ [Eff.writeFile sh] }
    let sup := superviseGo cfg.batch bn sc.attempts sc.answers
      ⟨[], st2.listing, st2.effs, false⟩
    let html := bn ++ ".html".toList
    { listing := addNew sup.listing [html],
      effs := sup.effs ++ [Eff.writeFile html],
      outFiles := st2.outFiles ++ [bn],
      prints := st2.prints }

/-- tssl.py lines 280-394, one iteration of `for target in
args.targets`: derive the basename, `glob(f"{fileName}*")` against the
current directory listing, apply the collision policy (lines 291-304:
overwrite deletes every matching file, skip `continue`s, neither
aborts the run), then hand over to `runTargetScan`. -/
def runTarget (cfg : Config) (sc : TargetScript) (st : RState)
    (target : PyStr) : Except RunErr RState :=
  let bn := tsslBasename target cfg.label
  let existingOutput := st.listing.filter (fun f => globMatch (bn ++ ['*']) f)
  if !existingOutput.isEmpty && !cfg.cmdOnly then
    if cfg.overwrite then
      Except.ok (runTargetScan cfg sc
        { st with listing := st.listing.filter (fun f => !globMatch (bn ++ ['*']) f),
                  effs := st.effs ++ existingOutput.map Eff.deleteFile }
        target bn)
    else if cfg.skip then Except.ok st
    else Except.error (RunErr.conflict target)
  else Except.ok (runTargetScan cfg sc st target bn)

/-- Projection of a per-target result onto its state; an aborted run
contributes the empty state (used only to state concrete
evaluations). -/
def okState : Except RunErr RState → RState
  | Except.ok st => st
  | Except.error _ => ⟨[], [], [], []⟩

/-- The target loop of `runTestssl`.  A `sys.exit` (collision abort)
ends the run, keeping the effects of the targets already processed. -/
def processTargets (cfg : Config) :
    List (PyStr × TargetScript) → RState → RState × Option RunErr
  | [], st => (st, none)
  | (t, sc) :: rest, st =>
    match runTarget cfg sc st t with
    | Except.ok st' => processTargets cfg rest st'
    | Except.error e => (st, some e)

/-! ## Archive Finalizer (tssl.py `zipDir`, lines 397-439) -/

/-- tssl.py lines 397-439 as an effect trace, parameterized by whether
archive creation, `testzip()` verification and `rmtree` succeed.
Creation failure exits inside the `try` (line 420-421) before any
verification; a corrupt member exits at line 438 leaving the source
directory untouched; only a passed verification reaches `rmtree`
(lines 429-434); an `rmtree` failure exits at line 436 with the
archive kept.  The returned Bool is `true` when `zipDir` called
`sys.exit`.  (The encrypted variant reopens the archive before
`testzip()` — lines 423-428 — which does not change the event
order.) -/
def zipDirTrace (writeOk verifyOk rmOk : Bool) : List Eff × Bool :=
  if !writeOk then ([], true)
  else if verifyOk then
    if rmOk then
      ([Eff.writeArchive, Eff.verifyArchivePassed, Eff.removeOutputDir], false)
    else ([Eff.writeArchive, Eff.verifyArchivePassed], true)
  else ([Eff.writeArchive, Eff.verifyArchiveFailed], true)

/-! ## `main` and the rest of `parseArgs` (tssl.py lines 141-248, 441-479) -/

/-- Top-level configuration: the per-target flags plus the archive
mode (`-z` / `-e`, mutually exclusive at argparse level). -/
structure MainCfg where
  cfg : Config
  zipMode : Bool
  encryptMode : Bool
deriving DecidableEq

/-- The environment a run finds: state of the output directory and
archive path, operator answers to the `yesNo` prompts of `parseArgs`,
and the success of the archive steps. -/
structure Env where
  dirExists : Bool
  dirIsDir : Bool
  answerCreateDir : Bool
  answerCompressExisting : Bool
  answerOverwriteZip : Bool
  zipArchiveExists : Bool
  dirIsCwd : Bool
  targetsFileExists : Bool
  initialListing : List PyStr
  zipWriteOk : Bool
  zipVerifyOk : Bool
  rmOk : Bool
deriving DecidableEq

/-- tssl.py lines 162-192, the file-system-relevant part of
`parseArgs` after the prologue: the `if/elif` chain creating the
output directory (creation is skipped entirely in command-only mode),
then the zip preconditions (existing-archive and current-directory
checks), which only ever exit — they write nothing.  Lines 193-217
(proxy, header, password validation) touch no files and are omitted.
Returns the effect list and whether `parseArgs` called `sys.exit`. -/
def parseArgsFs (m : MainCfg) (env : Env) : List Eff × Bool :=
  let step1 : List Eff × Bool :=
    if m.cfg.cmdOnly then ([], false)
    else if !env.dirExists then
      if m.cfg.batch || env.answerCreateDir then ([Eff.mkdirOutputDir], false)
      else ([], true)
    else if !env.dirIsDir then ([], true)
    else if m.zipMode || m.encryptMode then
      if !m.cfg.batch && !env.answerCompressExisting then ([], true) else ([], false)
    else ([], false)
  if step1.2 then step1
  else if m.zipMode || m.encryptMode then
    if env.zipArchiveExists && !m.cfg.overwrite then
      if m.cfg.batch then (step1.1, true)
      else if !env.answerOverwriteZip then (step1.1, true)
      else if env.dirIsCwd then (step1.1, true)
      else (step1.1, false)
    else if env.dirIsCwd then (step1.1, true)
    else (step1.1, false)
  else step1

/-- Result of a whole run. -/
structure MainOut where
  effs : List Eff
  prints : List PyStr
  outFiles : List PyStr
  aborted : Bool
deriving DecidableEq

/-- tssl.py `main` (lines 441-479) composed with the file-system parts
of `parseArgs` and `runTestssl`: directory handling, the
`targets_testssl.txt` persisted artifact (written only outside
command-only mode, after its overwrite check at lines 447-450), the
`<dir>/testssl` directory creation (line 277), the target loop, and
finally the optional Archive Finalizer (lines 467-470), which runs
only outside command-only mode. -/
def mainModel (m : MainCfg) (env : Env) (ts : List (PyStr × TargetScript)) :
    MainOut :=
  let pa := parseArgsFs m env
  if pa.2 then ⟨pa.1, [], [], true⟩
  else if !m.cfg.cmdOnly && env.targetsFileExists && !m.cfg.overwrite then
    ⟨pa.1, [], [], true⟩
  else
    let e1 := pa.1 ++
      (if m.cfg.cmdOnly then [] else [Eff.writeFile "targets_testssl.txt".toList]) ++
      (if m.cfg.cmdOnly then [] else [Eff.mkdirTestsslDir])
    let r := processTargets m.cfg ts ⟨env.initialListing, [], [], []⟩
    match r.2 with
    | some _ => ⟨e1 ++ r.1.effs, r.1.prints, r.1.outFiles, true⟩
    | none =>
      if !m.cfg.cmdOnly && (m.zipMode || m.encryptMode) then
        let z := zipDirTrace env.zipWriteOk env.zipVerifyOk env.rmOk
        ⟨e1 ++ r.1.effs ++ z.1, r.1.prints, r.1.outFiles, z.2⟩
      else ⟨e1 ++ r.1.effs, r.1.prints, r.1.outFiles, false⟩

/-! ## Helper lemmas -/

theorem dropWhile_head_false {α : Type} (p : α → Bool) (l : List α) :
    ∀ {c : α} {cs : List α}, l.dropWhile p = c :: cs → p c = false := by
  induction l with
  | nil => intro c cs h; simp at h
  | cons a t ih =>
    intro c cs h
    rw [List.dropWhile_cons] at h
    split at h
    · exact ih h
    · next hp =>
      injection h with h1 _
      subst h1
      simpa using hp

theorem dropWhile_self_of_head {α : Type} (p : α → Bool) (l : List α)
    (h : ∀ c, l.head? = some c → p c = false) : l.dropWhile p = l := by
  cases l with
  | nil => rfl
  | cons a t =>
    have := h a rfl
    rw [List.dropWhile_cons]
    simp [this]

theorem dropWhile_idem {α : Type} (p : α → Bool) (l : List α) :
    (l.dropWhile p).dropWhile p = l.dropWhile p := by
  cases hd : l.dropWhile p with
  | nil => rfl
  | cons c cs =>
    have hc := dropWhile_head_false p l hd
    rw [List.dropWhile_cons]
    simp [hc]

theorem dropWhile_suffix {α : Type} (p : α → Bool) (l : List α) :
    l.dropWhile p <:+ l := by
  induction l with
  | nil => simp
  | cons a t ih =>
    rw [List.dropWhile_cons]
    split
    · exact ih.trans (List.suffix_cons a t)
    · exact List.suffix_refl _

theorem getLast?_of_suffix {α : Type} {s m : List α} (h : s <:+ m) (hne : s ≠ []) :
    s.getLast? = m.getLast? := by
  obtain ⟨t, rfl⟩ := h
  exact (List.getLast?_append_of_ne_nil t hne).symm

/-- `str.strip()` is idempotent: the members of the resolved target set
are exactly the strings the strip step produced, so each is fixed by a
further strip. -/
theorem pyStrip_idem (s : PyStr) : pyStrip (pyStrip s) = pyStrip s := by
  unfold pyStrip
  set A := s.dropWhile isPySpace with hA
  set B := A.reverse.dropWhile isPySpace with hB
  have hBrev : B.reverse.dropWhile isPySpace = B.reverse := by
    apply dropWhile_self_of_head
    intro c hc
    rw [List.head?_reverse] at hc
    have hBne : B ≠ [] := by
      intro h
      rw [h] at hc
      simp at hc
    have hlast : B.getLast? = A.reverse.getLast? :=
      getLast?_of_suffix (hB ▸ dropWhile_suffix isPySpace A.reverse) hBne
    rw [hlast, List.getLast?_reverse] at hc
    cases hAeq : A with
    | nil => rw [hAeq] at hc; simp at hc
    | cons a t =>
      rw [hAeq] at hc
      simp at hc
      subst hc
      exact dropWhile_head_false isPySpace s (hA ▸ hAeq)
  rw [hBrev, List.reverse_reverse, hB, dropWhile_idem]

theorem isPrefixOf_append_drop {a b f : PyStr} (h : (a ++ b).isPrefixOf f = true) :
    a.isPrefixOf f = true := by
  rw [List.isPrefixOf_iff_prefix] at h ⊢
  exact (List.prefix_append a b).trans h

theorem isPrefixOf_self_append (a b : PyStr) : a.isPrefixOf (a ++ b) = true := by
  rw [List.isPrefixOf_iff_prefix]
  exact List.prefix_append a b

theorem globGo_star (f : PyStr) : globGo f ['*'] = true := by
  induction f with
  | nil => rfl
  | cons c f' ih =>
    simp only [globGo, globCons, if_pos rfl]
    rw [ih]
    simp

theorem noGlobMeta_append (a b : PyStr) :
    noGlobMeta (a ++ b) = (noGlobMeta a && noGlobMeta b) := by
  simp [noGlobMeta, List.all_append]

/-- On a basename free of glob metacharacters, the pattern
`<basename>*` degenerates to a plain prefix test — the regime tssl.py
is in for ordinary targets. -/
theorem globMatch_noMeta (p : PyStr) (hp : noGlobMeta p = true) (f : PyStr) :
    globMatch (p ++ ['*']) f = p.isPrefixOf f := by
  induction p generalizing f with
  | nil =>
    simp only [List.nil_append, globMatch]
    rw [globGo_star]
    simp
  | cons pc p' ih =>
    have hpc1 : pc ≠ '*' := by
      intro he
      subst he
      simp [noGlobMeta] at hp
    have hpc2 : pc ≠ '?' := by
      intro he
      subst he
      simp [noGlobMeta] at hp
    have hpc3 : pc ≠ '[' := by
      intro he
      subst he
      simp [noGlobMeta] at hp
    have hp' : noGlobMeta p' = true := by
      simp only [noGlobMeta, List.all_cons, Bool.and_eq_true] at hp ⊢
      exact hp.2
    cases f with
    | nil =>
      simp only [globMatch, globGo, List.cons_append, List.all_cons]
      simp [hpc1]
    | cons c f' =>
      simp only [globMatch, globGo, List.cons_append, globCons,
        if_neg hpc1, if_neg hpc2, if_neg hpc3]
      rw [List.isPrefixOf_cons₂]
      have hthis := ih hp' f'
      simp only [globMatch] at hthis
      simp only [List.append_eq]
      rw [hthis]

/-- `str.rstrip('/')` agrees with the spec-side structural
removal of all trailing slashes. -/
theorem pyRstripSlash_eq_spec (s : PyStr) :
    pyRstripSlash s = dropTrailingSlashesSpec s := by
  induction s with
  | nil => rfl
  | cons c cs ih =>
    rw [dropTrailingSlashesSpec, ← ih]
    unfold pyRstripSlash
    rw [List.reverse_cons, List.dropWhile_append]
    cases hE : (cs.reverse.dropWhile fun x => x == '/') with
    | nil =>
      simp only [hE, List.isEmpty_nil, if_true, List.reverse_nil]
      by_cases hc : c = '/'
      · simp [List.dropWhile_cons, hc]
      · simp [List.dropWhile_cons, hc]
    | cons r rs =>
      simp only [hE, List.isEmpty_cons, if_false]
      simp [List.reverse_append]

/-- The three-pass `.replace('/', '_').replace(' ', '').replace(':', '_')`
pipeline agrees with the spec-side one-pass character munge. -/
theorem replace_pipeline_eq_munge (t : PyStr) :
    pyReplace ':' ['_'] (pyReplace ' ' [] (pyReplace '/' ['_'] t)) = specMunge t := by
  induction t with
  | nil => rfl
  | cons c cs ih =>
    by_cases h1 : c = '/'
    · subst h1
      simp [pyReplace, specMunge, ih]
    · by_cases h2 : c = ' '
      · subst h2
        simp [pyReplace, specMunge, ih]
      · by_cases h3 : c = ':'
        · subst h3
          simp [pyReplace, specMunge, ih]
        · simp [pyReplace, specMunge, h1, h2, h3, ih]

/-! ## Frame lemmas for the target loop -/

/-- Step equation: a clean EOF attempt ends the loop with the chunks
appended and the scan-output files present. -/
theorem superviseGo_eof_step (batch : Bool) (bn : PyStr) (a : Attempt)
    (rest : List Attempt) (ans : List Bool) (st : SupState)
    (h : a.timedOut = false) :
    superviseGo batch bn (a :: rest) ans st =
      ⟨st.buffer ++ a.chunks.flatten, addNew st.listing (scanOutputs bn),
       st.effs ++ [Eff.spawnScan bn], false⟩ := by
  simp [superviseGo, h]

/-- Step equation: a timeout in batch mode ends the loop immediately,
abandoned, consuming no operator answer. -/
theorem superviseGo_batch_timeout_step (bn : PyStr) (a : Attempt)
    (rest : List Attempt) (ans : List Bool) (st : SupState)
    (h : a.timedOut = true) :
    superviseGo true bn (a :: rest) ans st =
      ⟨st.buffer ++ a.chunks.flatten, addNew st.listing (scanOutputs bn),
       st.effs ++ [Eff.spawnScan bn], true⟩ := by
  simp [superviseGo, h]

/-- Step equation: an interactive timeout whose retry is declined (or
whose answer script is exhausted) ends the loop, abandoned. -/
theorem superviseGo_declined_step (bn : PyStr) (a : Attempt)
    (rest : List Attempt) (ans : List Bool) (st : SupState)
    (h : a.timedOut = true) (hans : ans.head? ≠ some true) :
    superviseGo false bn (a :: rest) ans st =
      ⟨st.buffer ++ a.chunks.flatten, addNew st.listing (scanOutputs bn),
       st.effs ++ [Eff.spawnScan bn], true⟩ := by
  cases ans with
  | nil => simp [superviseGo, h]
  | cons b restAns =>
    cases b with
    | true => exact absurd rfl hans
    | false => simp [superviseGo, h]

/-- Step equation: an interactive timeout answered with a retry sweeps
away every `<basename>.*` file and respawns; the raw buffer is NOT
reset — it carries the chunks already streamed. -/
theorem superviseGo_retry_step (bn : PyStr) (a : Attempt)
    (rest : List Attempt) (ans : List Bool) (st : SupState)
    (h : a.timedOut = true) :
    superviseGo false bn (a :: rest) (true :: ans) st =
      superviseGo false bn rest ans
        ⟨st.buffer ++ a.chunks.flatten,
         (addNew st.listing (scanOutputs bn)).filter
           (fun g => !globMatch (bn ++ ['.', '*']) g),
         st.effs ++ [Eff.spawnScan bn] ++
           ((addNew st.listing (scanOutputs bn)).filter
             (fun g => globMatch (bn ++ ['.', '*']) g)).map Eff.deleteFile,
         false⟩ := by
  simp [superviseGo, h]

/-- A file of the output directory that does not glob-match
`<basename>.*` survives the supervision loop untouched: it is never
deleted by a retry sweep and never written. -/
theorem superviseGo_frame (batch : Bool) (bn f : PyStr)
    (hsw : globMatch (bn ++ ['.', '*']) f = false) :
    ∀ (atts : List Attempt) (ans : List Bool) (st : SupState),
      f ∈ st.listing →
      f ∈ (superviseGo batch bn atts ans st).listing ∧
      (Eff.deleteFile f ∈ (superviseGo batch bn atts ans st).effs →
        Eff.deleteFile f ∈ st.effs) ∧
      (Eff.writeFile f ∈ (superviseGo batch bn atts ans st).effs →
        Eff.writeFile f ∈ st.effs) := by
  intro atts
  induction atts with
  | nil =>
    intro ans st hmem
    exact ⟨hmem, fun h => h, fun h => h⟩
  | cons a rest ih =>
    intro ans st hmem
    have hmem' : f ∈ addNew st.listing (scanOutputs bn) :=
      List.mem_append_left _ hmem
    have heffs : ∀ e : Eff, e ∈ st.effs ++ [Eff.spawnScan bn] →
        e = Eff.deleteFile f ∨ e = Eff.writeFile f → e ∈ st.effs := by
      intro e he hor
      rcases List.mem_append.mp he with h | h
      · exact h
      · rcases hor with rfl | rfl <;> simp at h
    cases hT : a.timedOut with
    | false =>
      rw [superviseGo_eof_step batch bn a rest ans st hT]
      exact ⟨hmem', fun h => heffs _ h (Or.inl rfl), fun h => heffs _ h (Or.inr rfl)⟩
    | true =>
      cases batch with
      | true =>
        rw [superviseGo_batch_timeout_step bn a rest ans st hT]
        exact ⟨hmem', fun h => heffs _ h (Or.inl rfl), fun h => heffs _ h (Or.inr rfl)⟩
      | false =>
        cases hans : ans with
        | nil =>
          rw [superviseGo_declined_step bn a rest [] st hT (by simp)]
          exact ⟨hmem', fun h => heffs _ h (Or.inl rfl), fun h => heffs _ h (Or.inr rfl)⟩
        | cons b restAns =>
          cases b with
          | false =>
            rw [superviseGo_declined_step bn a rest (false :: restAns) st hT (by simp)]
            exact ⟨hmem', fun h => heffs _ h (Or.inl rfl), fun h => heffs _ h (Or.inr rfl)⟩
          | true =>
            rw [superviseGo_retry_step bn a rest restAns st hT]
            have hmemf : f ∈ (addNew st.listing (scanOutputs bn)).filter
                (fun g => !globMatch (bn ++ ['.', '*']) g) := by
              rw [List.mem_filter]
              exact ⟨hmem', by simp [hsw]⟩
            have hrec := ih restAns
              ⟨st.buffer ++ a.chunks.flatten,
               (addNew st.listing (scanOutputs bn)).filter
                 (fun g => !globMatch (bn ++ ['.', '*']) g),
               st.effs ++ [Eff.spawnScan bn] ++
                 ((addNew st.listing (scanOutputs bn)).filter
                   (fun g => globMatch (bn ++ ['.', '*']) g)).map Eff.deleteFile,
               false⟩ hmemf
            refine ⟨hrec.1, ?_, ?_⟩
            · intro h
              have h2 := hrec.2.1 h
              rcases List.mem_append.mp h2 with h3 | h3
              · exact heffs _ h3 (Or.inl rfl)
              · rcases List.mem_map.mp h3 with ⟨g, hg, hge⟩
                injection hge with hge
                subst hge
                rw [List.mem_filter] at hg
                rw [hsw] at hg
                exact absurd hg.2 (by simp)
            · intro h
              have h2 := hrec.2.2 h
              rcases List.mem_append.mp h2 with h3 | h3
              · exact heffs _ h3 (Or.inr rfl)
              · rcases List.mem_map.mp h3 with ⟨g, _, hge⟩
                exact absurd hge (by simp)

/-- Reduction of `runTargetScan` outside command-only mode. -/
theorem runTargetScan_eq (cfg : Config) (sc : TargetScript) (st : RState)
    (u bn : PyStr) (hcmd : cfg.cmdOnly = false) :
    runTargetScan cfg sc st u bn =
      { listing := addNew (superviseGo cfg.batch bn sc.attempts sc.answers
            ⟨[], addNew st.listing [bn ++ ".sh".toList],
             st.effs ++ [Eff.writeFile (bn ++ ".sh".toList)], false⟩).listing
            [bn ++ ".html".toList],
        effs := (superviseGo cfg.batch bn sc.attempts sc.answers
            ⟨[], addNew st.listing [bn ++ ".sh".toList],
             st.effs ++ [Eff.writeFile (bn ++ ".sh".toList)], false⟩).effs ++
          [Eff.writeFile (bn ++ ".html".toList)],
        outFiles := st.outFiles ++ [bn],
        prints := st.prints } := by
  simp [runTargetScan, hcmd]

/-- Frame property of the scan path: a file that glob-matches neither
the retry-sweep pattern nor the names of the replay script and HTML
transcript is preserved, never deleted and never written, and no
basename other than this target's is appended to `outFiles`. -/
theorem runTargetScan_frame (cfg : Config) (sc : TargetScript) (st : RState)
    (u bn f bnT : PyStr) (hcmd : cfg.cmdOnly = false)
    (hsw : globMatch (bn ++ ['.', '*']) f = false)
    (hsh : f ≠ bn ++ ".sh".toList) (hhtml : f ≠ bn ++ ".html".toList)
    (h1 : f ∈ st.listing) (h2 : Eff.deleteFile f ∉ st.effs)
    (h3 : Eff.writeFile f ∉ st.effs) (h4 : bnT ∉ st.outFiles) (hne : bnT ≠ bn) :
    f ∈ (runTargetScan cfg sc st u bn).listing ∧
    Eff.deleteFile f ∉ (runTargetScan cfg sc st u bn).effs ∧
    Eff.writeFile f ∉ (runTargetScan cfg sc st u bn).effs ∧
    bnT ∉ (runTargetScan cfg sc st u bn).outFiles := by
  rw [runTargetScan_eq cfg sc st u bn hcmd]
  have hsup := superviseGo_frame cfg.batch bn f hsw sc.attempts sc.answers
    ⟨[], addNew st.listing [bn ++ ".sh".toList],
     st.effs ++ [Eff.writeFile (bn ++ ".sh".toList)], false⟩
    (List.mem_append_left _ h1)
  refine ⟨List.mem_append_left _ hsup.1, ?_, ?_, ?_⟩
  · intro h
    rcases List.mem_append.mp h with h' | h'
    · have := hsup.2.1 h'
      rcases List.mem_append.mp this with h'' | h''
      · exact h2 h''
      · simp at h''
    · simp at h'
  · intro h
    rcases List.mem_append.mp h with h' | h'
    · have := hsup.2.2 h'
      rcases List.mem_append.mp this with h'' | h''
      · exact h3 h''
      · simp at h''
        exact hsh h''
    · simp at h'
      exact hhtml h'
  · intro h
    rcases List.mem_append.mp h with h' | h'
    · exact h4 h'
    · simp at h'
      exact hne h'

/-- Frame property of one target-loop iteration when overwrite mode is
off and the processed target's basename is free of glob
metacharacters (so that its `glob(f"{fileName}*")` check really sees
every file carrying the basename prefix): a pre-existing file carrying
the basename prefix of some target `t` is preserved, and `t`'s
basename is never added to `outFiles`. -/
theorem runTarget_frame (cfg : Config) (sc : TargetScript) (u t f : PyStr)
    (st st' : RState) (ho : cfg.overwrite = false)
    (hnm : noGlobMeta (tsslBasename u cfg.label) = true)
    (hpre : (tsslBasename t cfg.label).isPrefixOf f = true)
    (h1 : f ∈ st.listing) (h2 : Eff.deleteFile f ∉ st.effs)
    (h3 : Eff.writeFile f ∉ st.effs) (h4 : tsslBasename t cfg.label ∉ st.outFiles)
    (hok : runTarget cfg sc st u = Except.ok st') :
    f ∈ st'.listing ∧ Eff.deleteFile f ∉ st'.effs ∧
      Eff.writeFile f ∉ st'.effs ∧ tsslBasename t cfg.label ∉ st'.outFiles := by
  simp only [runTarget] at hok
  by_cases hcmd : cfg.cmdOnly = true
  · rw [if_neg (by simp [hcmd])] at hok
    rw [runTargetScan, if_pos hcmd] at hok
    injection hok with hok
    subst hok
    exact ⟨h1, h2, h3, h4⟩
  · rw [Bool.not_eq_true] at hcmd
    by_cases hex : (st.listing.filter
        (fun g => globMatch (tsslBasename u cfg.label ++ ['*']) g)).isEmpty = true
    · rw [if_neg (by simp [hex])] at hok
      injection hok with hok
      subst hok
      have hgf : globMatch (tsslBasename u cfg.label ++ ['*']) f = false := by
        cases hb : globMatch (tsslBasename u cfg.label ++ ['*']) f with
        | false => rfl
        | true =>
          rw [List.isEmpty_iff] at hex
          have hmf : f ∈ st.listing.filter
              (fun g => globMatch (tsslBasename u cfg.label ++ ['*']) g) := by
            rw [List.mem_filter]
            exact ⟨h1, hb⟩
          rw [hex] at hmf
          simp at hmf
      have hfb : (tsslBasename u cfg.label).isPrefixOf f = false := by
        rw [← globMatch_noMeta (tsslBasename u cfg.label) hnm f]
        exact hgf
      have hnd : noGlobMeta (tsslBasename u cfg.label ++ ['.']) = true := by
        rw [noGlobMeta_append, hnm]
        decide
      have hsw : globMatch (tsslBasename u cfg.label ++ ['.', '*']) f = false := by
        have hassoc : tsslBasename u cfg.label ++ ['.', '*'] =
            (tsslBasename u cfg.label ++ ['.']) ++ ['*'] := by simp
        rw [hassoc, globMatch_noMeta _ hnd f]
        cases hb : (tsslBasename u cfg.label ++ ['.']).isPrefixOf f with
        | false => rfl
        | true =>
          have hb' := isPrefixOf_append_drop hb
          rw [hb'] at hfb
          simp at hfb
      have hsh : f ≠ tsslBasename u cfg.label ++ ".sh".toList := by
        intro hfe
        rw [hfe, isPrefixOf_self_append] at hfb
        simp at hfb
      have hhtml : f ≠ tsslBasename u cfg.label ++ ".html".toList := by
        intro hfe
        rw [hfe, isPrefixOf_self_append] at hfb
        simp at hfb
      have hne : tsslBasename t cfg.label ≠ tsslBasename u cfg.label := by
        intro he
        rw [he] at hpre
        rw [hpre] at hfb
        simp at hfb
      exact runTargetScan_frame cfg sc st u (tsslBasename u cfg.label) f
        (tsslBasename t cfg.label) hcmd hsw hsh hhtml h1 h2 h3 h4 hne
    · rw [if_pos (by simp [hex, hcmd])] at hok
      rw [if_neg (by simp [ho])] at hok
      by_cases hskip : cfg.skip = true
      · rw [if_pos hskip] at hok
        injection hok with hok
        subst hok
        exact ⟨h1, h2, h3, h4⟩
      · rw [if_neg hskip] at hok
        exact absurd hok (by simp)

/-- Frame property of the whole target loop when overwrite mode is
off and every target's basename is free of glob metacharacters: an
initially present file carrying target `t`'s basename prefix survives
the run untouched and `t`'s basename never reaches the final
output-file list. -/
theorem processTargets_frame (cfg : Config) (t f : PyStr)
    (ho : cfg.overwrite = false)
    (hpre : (tsslBasename t cfg.label).isPrefixOf f = true) :
    ∀ (ts : List (PyStr × TargetScript)) (st : RState),
      (∀ u ∈ ts.map Prod.fst, noGlobMeta (tsslBasename u cfg.label) = true) →
      f ∈ st.listing → Eff.deleteFile f ∉ st.effs → Eff.writeFile f ∉ st.effs →
      tsslBasename t cfg.label ∉ st.outFiles →
      f ∈ (processTargets cfg ts st).1.listing ∧
      Eff.deleteFile f ∉ (processTargets cfg ts st).1.effs ∧
      Eff.writeFile f ∉ (processTargets cfg ts st).1.effs ∧
      tsslBasename t cfg.label ∉ (processTargets cfg ts st).1.outFiles := by
  intro ts
  induction ts with
  | nil =>
    intro st _ h1 h2 h3 h4
    exact ⟨h1, h2, h3, h4⟩
  | cons p rest ih =>
    intro st hall h1 h2 h3 h4
    obtain ⟨u, sc⟩ := p
    have hnm : noGlobMeta (tsslBasename u cfg.label) = true :=
      hall u (List.mem_cons_self _ _)
    have hall' : ∀ v ∈ rest.map Prod.fst,
        noGlobMeta (tsslBasename v cfg.label) = true := by
      intro v hv
      exact hall v (List.mem_cons_of_mem _ hv)
    simp only [processTargets]
    cases hok : runTarget cfg sc st u with
    | ok st' =>
      have hstep := runTarget_frame cfg sc u t f st st' ho hnm hpre h1 h2 h3 h4 hok
      exact ih st' hall' hstep.1 hstep.2.1 hstep.2.2.1 hstep.2.2.2
    | error e =>
      exact ⟨h1, h2, h3, h4⟩

/-! ## Command-only mode lemmas -/

/-- In command-only mode a target-loop iteration only prints: no file
is globbed away, written or deleted, no process is spawned, and the
target is not appended to `outFiles`. -/
theorem runTarget_cmdOnly (cfg : Config) (sc : TargetScript) (st : RState)
    (u : PyStr) (h : cfg.cmdOnly = true) :
    runTarget cfg sc st u = Except.ok { st with prints := st.prints ++ [u] } := by
  simp only [runTarget]
  rw [if_neg (by simp [h])]
  rw [runTargetScan, if_pos h]

/-- In command-only mode the whole target loop leaves the state
unchanged except for printing one composed command per target, and
never aborts. -/
theorem processTargets_cmdOnly (cfg : Config) (h : cfg.cmdOnly = true) :
    ∀ (ts : List (PyStr × TargetScript)) (st : RState),
      processTargets cfg ts st =
        ({ st with prints := st.prints ++ ts.map Prod.fst }, none) := by
  intro ts
  induction ts with
  | nil =>
    intro st
    simp [processTargets]
  | cons p rest ih =>
    intro st
    obtain ⟨u, sc⟩ := p
    simp only [processTargets]
    rw [runTarget_cmdOnly cfg sc st u h]
    simp [ih]

/-- In command-only mode `parseArgs` produces no file-system effect
(and in particular never creates the output directory). -/
theorem parseArgsFs_cmdOnly_effs (m : MainCfg) (env : Env)
    (h : m.cfg.cmdOnly = true) :
    (parseArgsFs m env).1 = [] := by
  unfold parseArgsFs
  rw [if_pos h]
  cases hz : (m.zipMode || m.encryptMode) <;>
    cases hze : (env.zipArchiveExists && !m.cfg.overwrite) <;>
      cases hb : m.cfg.batch <;>
        cases ha : env.answerOverwriteZip <;>
          cases hc : env.dirIsCwd <;>
            simp [hz, hze, hb, ha, hc]

/-! ## Claim theorems -/

/-- C1: the claim states that every non-empty trimmed line of a
newline-delimited `-fL` target-list file becomes a candidate target
(and that a missing file fails with `InputError`).  The missing-file
half is true, but the code only VALIDATES the file's lines and never
appends them to `targets` (tssl.py lines 222-232 contain no append):
a run whose only source is a `-fL` file with the valid line
`a.example.com` resolves to the empty target set and aborts with "No
targets detected".  This contradicts the code's own help text
("newline delimited file containing URLs to scan") and its own
invalid-line diagnostic, so it is a code bug, evaluated here. -/
theorem fileList_lines_never_become_targets :
    resolveTargets none
        (some [⟨"t.txt".toList, true, ["a.example.com".toList]⟩]) none none
      = Except.error ResolveErr.noTargets ∧
    resolveTargets none
        (some [⟨"missing.txt".toList, false, []⟩]) none none
      = Except.error (ResolveErr.inputFileMissing "missing.txt".toList) := by
  exact ⟨by decide, by decide⟩

/-- C2 (counterexample): the Output Namer does not behave as claimed.
On the target `"a b//"` the code strips ALL trailing slashes (not one)
and DELETES the space (instead of replacing it with an underscore),
producing `testssl_ab`, while the claimed rule produces
`testssl_a_b_`. -/
theorem outputNamer_literal_claim_false :
    tsslBasename "a b//".toList [] = "testssl_ab".toList ∧
    specBasenameClaimed "a b//".toList [] = "testssl_a_b_".toList ∧
    tsslBasename "a b//".toList [] ≠ specBasenameClaimed "a b//".toList [] := by
  exact ⟨by decide, by decide, by decide⟩

/-- C2 (amended): for every target string and optional label, the
Output Namer strips ALL trailing `'/'` characters, then strips any
leading `scheme://` (shortest nonempty scheme), then replaces each
`'/'` and `':'` with `'_'` and REMOVES each space; a target that is
empty or consists solely of slashes is munged unstripped; `_<label>`
is appended when a non-empty label was supplied. -/
theorem outputNamer_amended_correct (target label : PyStr) :
    tsslBasename target label = specBasenameAmended target label := by
  unfold tsslBasename specBasenameAmended targetStrip
  rw [replace_pipeline_eq_munge, pyRstripSlash_eq_spec]

/-- C3: the Archive Finalizer never deletes the source output
directory before the freshly written archive has been verified: for
every combination of creation, verification and removal outcomes, a
`removeOutputDir` event occurs only when verification succeeded and
only after the `verifyArchivePassed` event; when verification fails,
no removal event occurs at all (the source directory is preserved). -/
theorem zipDir_delete_only_after_verify (w v r : Bool) :
    (Eff.removeOutputDir ∈ (zipDirTrace w v r).1 →
      v = true ∧
      (zipDirTrace w v r).1.indexOf Eff.verifyArchivePassed <
        (zipDirTrace w v r).1.indexOf Eff.removeOutputDir) ∧
    (v = false → Eff.removeOutputDir ∉ (zipDirTrace w v r).1) := by
  cases w <;> cases v <;> cases r <;> exact ⟨by decide, by decide⟩

/-- C3 witness: on the all-success trace the removal is preceded by
the passed verification. -/
theorem zipDir_delete_only_after_verify_witness :
    true = true ∧
    (zipDirTrace true true true).1.indexOf Eff.verifyArchivePassed <
      (zipDirTrace true true true).1.indexOf Eff.removeOutputDir :=
  (zipDir_delete_only_after_verify true true true).1 (by decide)

/-- C4 (counterexample): the claim states that on an interactive retry
the raw output buffer is reset, so bytes streamed before the retry do
not reach the final captured output.  In the code `testsslOut = b''`
stands OUTSIDE the `while run` loop (tssl.py line 366), so the buffer
carries over: a first attempt streaming bytes 1,2 that times out and
is retried, followed by a clean attempt streaming byte 3, yields the
captured output [1,2,3], not [3]. -/
theorem retry_buffer_carryover_refutes_reset :
    (superviseGo false "b".toList [⟨[[1], [2]], true⟩, ⟨[[3]], false⟩] [true]
      ⟨[], [], [], false⟩).buffer = [1, 2] ++ [3] ∧
    ([1, 2] ++ [3] : List Nat) ≠ [3] := by
  exact ⟨by decide, by decide⟩

/-- C4 (amended): when a scan times out in interactive mode and the
operator chooses to retry, every partial output file matching
`<basename>.*` is deleted and the supervisor restarts from spawning,
but the in-memory raw output buffer is NOT reset: the bytes already
streamed stay in front of whatever the retried attempt produces. -/
theorem retry_deletes_restarts_buffer_carries (bn : PyStr) (a : Attempt)
    (rest : List Attempt) (ans : List Bool) (st : SupState)
    (h : a.timedOut = true) :
    superviseGo false bn (a :: rest) (true :: ans) st =
      superviseGo false bn rest ans
        ⟨st.buffer ++ a.chunks.flatten,
         (addNew st.listing (scanOutputs bn)).filter
           (fun g => !globMatch (bn ++ ['.', '*']) g),
         st.effs ++ [Eff.spawnScan bn] ++
           ((addNew st.listing (scanOutputs bn)).filter
             (fun g => globMatch (bn ++ ['.', '*']) g)).map Eff.deleteFile,
         false⟩ :=
  superviseGo_retry_step bn a rest ans st h

/-- C4 (amended) witness at a concrete retry. -/
theorem retry_deletes_restarts_buffer_carries_witness :
    superviseGo false "b".toList [⟨[[1]], true⟩] [true] ⟨[], [], [], false⟩ =
      superviseGo false "b".toList [] []
        ⟨[] ++ [[1]].flatten,
         (addNew [] (scanOutputs "b".toList)).filter
           (fun g => !globMatch ("b".toList ++ ['.', '*']) g),
         [] ++ [Eff.spawnScan "b".toList] ++
           ((addNew [] (scanOutputs "b".toList)).filter
             (fun g => globMatch ("b".toList ++ ['.', '*']) g)).map Eff.deleteFile,
         false⟩ :=
  retry_deletes_restarts_buffer_carries "b".toList ⟨[[1]], true⟩ [] []
    ⟨[], [], [], false⟩ rfl

/-- C5 (counterexample): the claim states that on a batch-mode timeout
no HTML transcript is produced for the target.  But tssl.py
lines 390-394 write the HTML file and append the target to `outFiles`
unconditionally after the supervision loop: on a concrete batch run
whose only attempt times out, the supervisor does end abandoned, yet
`testssl_x.html` is written and `testssl_x` appears in the
output-file list. -/
theorem batch_timeout_still_writes_html :
    (superviseGo true "testssl_x".toList [⟨[[7]], true⟩] []
      ⟨[], [], [], false⟩).abandoned = true ∧
    Eff.writeFile "testssl_x.html".toList ∈
      (okState (runTarget ⟨false, true, false, false, []⟩ ⟨[⟨[[7]], true⟩], []⟩
        ⟨[], [], [], []⟩ "x".toList)).effs ∧
    "testssl_x".toList ∈
      (okState (runTarget ⟨false, true, false, false, []⟩ ⟨[⟨[[7]], true⟩], []⟩
        ⟨[], [], [], []⟩ "x".toList)).outFiles := by
  exact ⟨by decide, by decide, by decide⟩

/-- C5 (amended): in batch mode an idle timeout is final — the
supervision loop stops at once, abandoned, consuming no operator
answer — but the pipeline still renders an HTML transcript from the
partial output and records the target in the output-file list. -/
theorem batch_timeout_abandons_but_writes_html (cfg : Config) (bn t : PyStr)
    (cs : List (List Nat)) (rest : List Attempt) (ans : List Bool)
    (sup0 : SupState) (st : RState)
    (h1 : cfg.cmdOnly = false) (h2 : cfg.batch = true)
    (h3 : st.listing.filter
      (fun g => globMatch (tsslBasename t cfg.label ++ ['*']) g) = []) :
    superviseGo true bn (⟨cs, true⟩ :: rest) ans sup0 =
      ⟨sup0.buffer ++ cs.flatten, addNew sup0.listing (scanOutputs bn),
       sup0.effs ++ [Eff.spawnScan bn], true⟩ ∧
    ∃ st', runTarget cfg ⟨⟨cs, true⟩ :: rest, ans⟩ st t = Except.ok st' ∧
      Eff.writeFile (tsslBasename t cfg.label ++ ".html".toList) ∈ st'.effs ∧
      tsslBasename t cfg.label ∈ st'.outFiles := by
  refine ⟨superviseGo_batch_timeout_step bn ⟨cs, true⟩ rest ans sup0 rfl, ?_⟩
  have hrt : runTarget cfg ⟨⟨cs, true⟩ :: rest, ans⟩ st t =
      Except.ok (runTargetScan cfg ⟨⟨cs, true⟩ :: rest, ans⟩ st t
        (tsslBasename t cfg.label)) := by
    simp only [runTarget]
    rw [h3]
    rw [if_neg (by simp)]
  refine ⟨_, hrt, ?_, ?_⟩
  · rw [runTargetScan_eq _ _ _ _ _ h1]
    simp
  · rw [runTargetScan_eq _ _ _ _ _ h1]
    simp

/-- C5 (amended) witness at a concrete batch-mode timeout. -/
theorem batch_timeout_abandons_but_writes_html_witness :
    superviseGo true "b".toList (⟨[[7]], true⟩ :: []) [] ⟨[], [], [], false⟩ =
      ⟨[] ++ [[7]].flatten, addNew [] (scanOutputs "b".toList),
       [] ++ [Eff.spawnScan "b".toList], true⟩ ∧
    ∃ st', runTarget ⟨false, true, false, false, []⟩ ⟨⟨[[7]], true⟩ :: [], []⟩
        ⟨[], [], [], []⟩ "x".toList = Except.ok st' ∧
      Eff.writeFile (tsslBasename "x".toList [] ++ ".html".toList) ∈ st'.effs ∧
      tsslBasename "x".toList [] ∈ st'.outFiles :=
  batch_timeout_abandons_but_writes_html ⟨false, true, false, false, []⟩
    "b".toList "x".toList [[7]] [] [] ⟨[], [], [], false⟩ ⟨[], [], [], []⟩
    rfl rfl rfl

/-- C6 (counterexample): the claim fails for targets whose basename
contains glob metacharacters, because the collision check is
`glob(f"{fileName}*")` and glob interprets the basename's own
characters.  The IPv6-style target `[::1]:443` has basename
`testssl_[__1]_443`, in which `[__1]` is a character class, so the
pattern `testssl_[__1]_443*` does NOT match the target's own
pre-existing output file `testssl_[__1]_443.sh` (which plainly carries
the basename as a prefix).  In skip mode that file is therefore not
detected: the run proceeds, truncates the pre-existing `.sh` by
rewriting it, and appends the target's basename to the output-file
list — both conjuncts of the claim fail. -/
theorem skip_mode_glob_metachar_counterexample :
    tsslBasename "[::1]:443".toList [] = "testssl_[__1]_443".toList ∧
    ("testssl_[__1]_443".toList : PyStr).isPrefixOf
      "testssl_[__1]_443.sh".toList = true ∧
    globMatch ("testssl_[__1]_443".toList ++ ['*'])
      "testssl_[__1]_443.sh".toList = false ∧
    "testssl_[__1]_443".toList ∈
      (processTargets ⟨false, false, false, true, []⟩
        [("[::1]:443".toList, ⟨[⟨[], false⟩], []⟩)]
        ⟨["testssl_[__1]_443.sh".toList], [], [], []⟩).1.outFiles ∧
    Eff.writeFile "testssl_[__1]_443.sh".toList ∈
      (processTargets ⟨false, false, false, true, []⟩
        [("[::1]:443".toList, ⟨[⟨[], false⟩], []⟩)]
        ⟨["testssl_[__1]_443.sh".toList], [], [], []⟩).1.effs := by
  exact ⟨by decide, by decide, by decide, by decide, by decide⟩

/-- C6 (amended): with skip mode active, overwrite off, and every
target's basename free of the glob metacharacters `*`, `?`, `[` (the
regime in which `glob(f"{fileName}*")` sees exactly the
basename-prefixed files), a pre-existing output file `f` matching some
target `t`'s basename prefix guarantees that `t`'s basename never
appears in the final output-file list and that `f` itself survives the
whole run: it stays in the directory listing and no deletion or write
event ever names it. -/
theorem skip_mode_target_omitted_and_files_untouched (cfg : Config)
    (ts : List (PyStr × TargetScript)) (listing0 : List PyStr) (t f : PyStr)
    (hskip : cfg.skip = true) (ho : cfg.overwrite = false)
    (hcmd : cfg.cmdOnly = false)
    (hall : ∀ u ∈ ts.map Prod.fst, noGlobMeta (tsslBasename u cfg.label) = true)
    (hf : f ∈ listing0)
    (hm : (tsslBasename t cfg.label).isPrefixOf f = true) :
    tsslBasename t cfg.label ∉
      (processTargets cfg ts ⟨listing0, [], [], []⟩).1.outFiles ∧
    f ∈ (processTargets cfg ts ⟨listing0, [], [], []⟩).1.listing ∧
    Eff.deleteFile f ∉ (processTargets cfg ts ⟨listing0, [], [], []⟩).1.effs ∧
    Eff.writeFile f ∉ (processTargets cfg ts ⟨listing0, [], [], []⟩).1.effs := by
  have hfr := processTargets_frame cfg t f ho hm ts ⟨listing0, [], [], []⟩
    hall hf (by simp) (by simp) (by simp)
  exact ⟨hfr.2.2.2, hfr.1, hfr.2.1, hfr.2.2.1⟩

/-- C6 witness: a skip-mode run over the single metacharacter-free
target `a.com` with a pre-existing `testssl_a.com.json` leaves
everything untouched. -/
theorem skip_mode_target_omitted_and_files_untouched_witness :
    tsslBasename "a.com".toList (Config.mk false false false true []).label ∉
      (processTargets ⟨false, false, false, true, []⟩
        [("a.com".toList, ⟨[⟨[], false⟩], []⟩)]
        ⟨["testssl_a.com.json".toList], [], [], []⟩).1.outFiles ∧
    "testssl_a.com.json".toList ∈
      (processTargets ⟨false, false, false, true, []⟩
        [("a.com".toList, ⟨[⟨[], false⟩], []⟩)]
        ⟨["testssl_a.com.json".toList], [], [], []⟩).1.listing ∧
    Eff.deleteFile "testssl_a.com.json".toList ∉
      (processTargets ⟨false, false, false, true, []⟩
        [("a.com".toList, ⟨[⟨[], false⟩], []⟩)]
        ⟨["testssl_a.com.json".toList], [], [], []⟩).1.effs ∧
    Eff.writeFile "testssl_a.com.json".toList ∉
      (processTargets ⟨false, false, false, true, []⟩
        [("a.com".toList, ⟨[⟨[], false⟩], []⟩)]
        ⟨["testssl_a.com.json".toList], [], [], []⟩).1.effs :=
  skip_mode_target_omitted_and_files_untouched ⟨false, false, false, true, []⟩
    [("a.com".toList, ⟨[⟨[], false⟩], []⟩)] ["testssl_a.com.json".toList]
    "a.com".toList "testssl_a.com.json".toList rfl rfl rfl (by decide)
    (by decide) (by decide)

/-- C7 (counterexample): the parenthetical "two distinct targets
collide exactly when they differ only in the stripped scheme or
trailing slash" is false: `a:b` and `a/b` are distinct, their
scheme-and-slash-stripped forms still differ, yet the separator
replacement maps both to the basename `testssl_a_b`. -/
theorem collision_not_only_scheme_slash :
    tsslBasename "a:b".toList [] = tsslBasename "a/b".toList [] ∧
    ("a:b".toList : PyStr) ≠ "a/b".toList ∧
    targetStrip "a:b".toList ≠ targetStrip "a/b".toList := by
  exact ⟨by decide, by decide, by decide⟩

/-- C7 (amended): `https://a.example.com/` and `a.example.com` both
map to the basename `testssl_a.example.com` (targets differing only in
the stripped scheme or trailing slash always collide — though the
character replacement can also make other distinct targets collide),
and in a run over both targets with neither overwrite nor skip the
second aborts as a duplicate-output conflict. -/
theorem scheme_slash_targets_same_basename_conflict :
    tsslBasename "https://a.example.com/".toList []
      = "testssl_a.example.com".toList ∧
    tsslBasename "a.example.com".toList []
      = "testssl_a.example.com".toList ∧
    (processTargets ⟨false, false, false, false, []⟩
        [("https://a.example.com/".toList, ⟨[⟨[], false⟩], []⟩),
         ("a.example.com".toList, ⟨[⟨[], false⟩], []⟩)]
        ⟨[], [], [], []⟩).2
      = some (RunErr.conflict "a.example.com".toList) := by
  exact ⟨by decide, by decide, by decide⟩

/-- C8 (counterexample): the claim states that invoking the program
with no arguments prints usage and exits with a NON-ZERO status.  The
code prints the help and then calls `sys.exit()` with no argument
(tssl.py lines 147-149), which is exit status 0. -/
theorem no_args_nonzero_exit_false :
    ¬ ∃ e : PyExit, parseArgsEarly 1 false false = some (true, e) ∧
      0 < e.status := by
  rintro ⟨e, he, hs⟩
  simp only [parseArgsEarly, if_pos rfl] at he
  injection he with he
  injection he with _ he
  rw [← he] at hs
  simp [PyExit.status] at hs

/-- C8 (amended): invoking the program with no arguments prints its
usage text and exits with status ZERO (`sys.exit()` with no
argument). -/
theorem no_args_prints_usage_exits_zero :
    parseArgsEarly 1 false false = some (true, PyExit.plain) ∧
    PyExit.status PyExit.plain = 0 :=
  ⟨rfl, rfl⟩

/-- C9: whenever target resolution succeeds, the resolved collection
is duplicate-free, non-empty, and every member is a non-empty string
fixed under stripping; resolution can never return an empty
collection (the empty case exits with "No targets detected"). -/
theorem resolved_targets_set_invariants (u : Option (List PyStr))
    (fls : Option (List ListFile)) (fn fx : Option (List ReportFile))
    (ts : List PyStr)
    (h : resolveTargets u fls fn fx = Except.ok ts) :
    ts.Nodup ∧ ts ≠ [] ∧ ∀ x ∈ ts, pyStrip x = x ∧ x ≠ [] := by
  simp only [resolveTargets] at h
  split at h
  · simp at h
  · split at h
    · simp at h
    · split at h
      · simp at h
      · split at h
        · simp at h
        · next hne =>
          injection h with h
          subst h
          refine ⟨List.nodup_dedup _, ?_, ?_⟩
          · intro hnil
            rw [hnil] at hne
            simp at hne
          · intro x hx
            rw [List.mem_dedup, List.mem_filter] at hx
            obtain ⟨hmap, hneb⟩ := hx
            rw [List.mem_map] at hmap
            obtain ⟨s, _, rfl⟩ := hmap
            refine ⟨pyStrip_idem s, ?_⟩
            intro hxe
            rw [hxe] at hneb
            simp at hneb

/-- C9 witness: two URL arguments that strip to the same target
resolve to the deduplicated singleton. -/
theorem resolved_targets_set_invariants_witness :
    ["a".toList].Nodup ∧ (["a".toList] : List PyStr) ≠ [] ∧
    ∀ x ∈ (["a".toList] : List PyStr), pyStrip x = x ∧ x ≠ [] :=
  resolved_targets_set_invariants (some [" a ".toList, "a".toList]) none none
    none ["a".toList] (by decide)

/-- C10: in command-only (dry-run) mode a run produces NO side
effect: no directory creation, no target-list file, no replay script,
no spawned scan process (hence no scan output), no HTML transcript and
no archive — and when the run is not aborted by a validation check,
exactly the composed command of every target is printed. -/
theorem cmdOnly_creates_nothing (m : MainCfg) (env : Env)
    (ts : List (PyStr × TargetScript)) (h : m.cfg.cmdOnly = true) :
    (mainModel m env ts).effs = [] ∧
    ((mainModel m env ts).aborted = false →
      (mainModel m env ts).prints = ts.map Prod.fst) := by
  have hpa := parseArgsFs_cmdOnly_effs m env h
  unfold mainModel
  rw [processTargets_cmdOnly m.cfg h]
  by_cases hab : (parseArgsFs m env).2 = true
  · rw [if_pos hab]
    exact ⟨hpa, by intro hf; simp at hf⟩
  · rw [if_neg hab]
    rw [if_neg (by simp [h])]
    simp [hpa, h]

/-- C10 witness: a concrete command-only run over one target. -/
theorem cmdOnly_creates_nothing_witness :
    (mainModel ⟨⟨true, false, false, false, []⟩, false, false⟩
      ⟨true, true, true, true, true, false, false, false, [], true, true, true⟩
      [("x".toList, ⟨[], []⟩)]).effs = [] ∧
    ((mainModel ⟨⟨true, false, false, false, []⟩, false, false⟩
      ⟨true, true, true, true, true, false, false, false, [], true, true, true⟩
      [("x".toList, ⟨[], []⟩)]).aborted = false →
      (mainModel ⟨⟨true, false, false, false, []⟩, false, false⟩
        ⟨true, true, true, true, true, false, false, false, [], true, true, true⟩
        [("x".toList, ⟨[], []⟩)]).prints =
        [("x".toList, (⟨[], []⟩ : TargetScript))].map Prod.fst) :=
  cmdOnly_creates_nothing ⟨⟨true, false, false, false, []⟩, false, false⟩
    ⟨true, true, true, true, true, false, false, false, [], true, true, true⟩
    [("x".toList, ⟨[], []⟩)] rfl
